import Mathlib

/-!
Shallow embedding of the stereo VR demo (`src/Minimal/main.cpp`) and proofs
about its ring buffer, per-eye draw dispatch, viewport packing, runtime
calibration state machine and render-lag freeze logic.

Conventions of the embedding:
* C `float`/`double` values are modelled as exact rationals (`ℚ`); the claims
  settled here do not hinge on rounding behaviour.
* C `int` counters are modelled as `ℤ` (or `ℕ` where the source value is
  manifestly a non-negative array index).
* The fixed 30-slot C array `vec3 positions[30]` is modelled as a total
  function `ℕ → α`; all indices used by the source stay in `[0, 29]`.
* Globals plus the `RiftApp` members mutated by `update()` are collected in
  one explicit state record, and `update()` becomes a pure state-transition
  function applied once per frame to the polled input.
-/

namespace VRImmersion

/-! ## Ring buffer (`class Buffer`, main.cpp lines 1007-1038)

`vec3` payloads are modelled generically by a type `α`.  `Buffer.init d`
is the freshly constructed buffer (`read = write = num = 0`); the C array
contents are indeterminate at construction, modelled by the arbitrary
fill value `d`. -/

structure Buffer (α : Type) where
  positions : ℕ → α
  read : ℕ
  write : ℕ
  num : ℕ

def Buffer.init {α : Type} (d : α) : Buffer α :=
  ⟨fun _ => d, 0, 0, 0⟩

/-- `void push(vec3 position)` (lines 1018-1024): write at the write cursor,
advance it modulo 30, bump occupancy up to 30. -/
def Buffer.push {α : Type} (b : Buffer α) (v : α) : Buffer α :=
  { b with
    positions := fun j => if j = b.write then v else b.positions j
    write := (b.write + 1) % 30
    num := if b.num < 30 then b.num + 1 else b.num }

/-- The value returned by `vec3 pop(int lag)` (lines 1026-1036): when full,
read index `(read - lag + 30) % 30` (C `%` on the here-nonnegative operand
agrees with `Int.emod`); otherwise the degenerate fallback `positions[0]`. -/
def Buffer.popVal {α : Type} (b : Buffer α) (lag : ℤ) : α :=
  if b.num = 30 then b.positions (((b.read : ℤ) - lag + 30).emod 30).toNat
  else b.positions 0

/-- The state change performed by `pop`: when full the read cursor advances
by one modulo 30, otherwise nothing changes. -/
def Buffer.popSt {α : Type} (b : Buffer α) (lag : ℤ) : Buffer α :=
  if b.num = 30 then { b with read := (b.read + 1) % 30 } else b

/-- A client-visible ring-buffer operation. -/
inductive BufOp (α : Type) where
  | push (v : α)
  | pop (lag : ℤ)

/-- Run a sequence of operations left to right (state only). -/
def runOps {α : Type} (b : Buffer α) : List (BufOp α) → Buffer α
  | [] => b
  | BufOp.push v :: L => runOps (b.push v) L
  | BufOp.pop lag :: L => runOps (b.popSt lag) L

/-- Number of pushes in an operation sequence. -/
def pushCount {α : Type} : List (BufOp α) → ℕ
  | [] => 0
  | BufOp.push _ :: L => pushCount L + 1
  | BufOp.pop _ :: L => pushCount L

/-- The first value ever pushed by an operation sequence, if any. -/
def firstPushed {α : Type} : List (BufOp α) → Option α
  | [] => none
  | BufOp.push v :: _ => some v
  | BufOp.pop _ :: L => firstPushed L

/-! ## Per-eye draw dispatch (`RiftApp::draw`, lines 821-856)

For each eye slot (left viewport first, then right), `draw` selects — by the
current value of the mode counter `button_A` — which
`(projection, headPose, isLeft)` triple is handed to `renderScene`, or skips
the call entirely.  Projections and poses are generic (`π`, `ρ`).  `none`
means no `renderScene` call is made for that eye slot. -/

inductive Eye where
  | left
  | right
deriving DecidableEq

/-- The triple passed to `renderScene` for a given eye slot, per the
`button_A` chain in lines 821-856.  Mode 1: normal stereo.  Mode 2:
`renderScene(_eyeProjections[eye], left_pos_new, true)` for both slots —
note the per-slot projection.  Mode 3 / 4: left-only / right-only.  Mode 5:
swapped. -/
def dispatch {π ρ : Type} (bA : ℕ) (projL projR : π) (poseL poseR : ρ)
    (eye : Eye) : Option (π × ρ × Bool) :=
  if bA = 1 then
    match eye with
    | Eye.left => some (projL, poseL, true)
    | Eye.right => some (projR, poseR, false)
  else if bA = 2 then
    match eye with
    | Eye.left => some (projL, poseL, true)
    | Eye.right => some (projR, poseL, true)
  else if bA = 3 then
    match eye with
    | Eye.left => some (projL, poseL, true)
    | Eye.right => none
  else if bA = 4 then
    match eye with
    | Eye.left => none
    | Eye.right => some (projR, poseR, false)
  else if bA = 5 then
    match eye with
    | Eye.left => some (projR, poseR, false)
    | Eye.right => some (projL, poseL, true)
  else none

/-! ## Viewport packing (`RiftApp::RiftApp`, lines 536-558)

The constructor folds over the two eyes in order Left, Right: each eye's
viewport position is the running render-target width (`{(int)_renderTargetSize.x, 0}`),
then the running height becomes the max with the eye height and the running
width grows by the eye width.  `_renderTargetSize` starts at `(0, 0)`. -/

structure ViewportRect where
  posX : ℕ
  posY : ℕ
  width : ℕ
  height : ℕ
deriving DecidableEq, Repr

/-- Fold the per-eye texture sizes `(w, h)` into the combined render-target
size and the per-eye viewport rectangles, in eye order. -/
def packEyes : List (ℕ × ℕ) → ℕ × ℕ → (ℕ × ℕ) × List ViewportRect
  | [], rts => (rts, [])
  | (w, h) :: rest, (x, y) =>
    let vp : ViewportRect := ⟨x, 0, w, h⟩
    let out := packEyes rest (x + w, max y h)
    (out.1, vp :: out.2)

/-! ## Runtime calibration state machine (`RiftApp::update`, lines 643-768,
over the globals declared at lines 483-491 and the `RiftApp` members
`iod`, `iod_origin`, `set_iod`, `count`)

The raw controller sample delivered by `ovr_GetInputState` is modelled by
`InputState`.  Only the bits of `Buttons` that `update()` tests are tracked
individually (`A`, `B`, `X`, `Y`); `btnOther` records whether any other bit
of the mask is set, so `Buttons != 0` is `anyButton`. -/

structure InputState where
  indexTriggerL : ℚ
  indexTriggerR : ℚ
  handTriggerL : ℚ
  handTriggerR : ℚ
  thumbRx : ℚ
  thumbLx : ℚ
  btnA : Bool
  btnB : Bool
  btnX : Bool
  btnY : Bool
  btnOther : Bool
deriving DecidableEq

/-- `inputState.Buttons != 0`. -/
def InputState.anyButton (i : InputState) : Bool :=
  i.btnA || i.btnB || i.btnX || i.btnY || i.btnOther

/-- The mutable state read and written by `update()`: the globals
`button_A`, `button_B`, `button_X`, `isPressed`, `isTouched`,
`set_Cubesize`, `tracking_lag`, `render_lag`, `superRotation`
(lines 483-491) plus the `RiftApp` members `iod`, `iod_origin`,
`set_iod`, `count` (lines 521-523). -/
structure CalibState where
  button_A : ℕ
  button_B : ℕ
  button_X : ℕ
  set_Cubesize : ℕ
  tracking_lag : ℤ
  render_lag : ℤ
  superRotation : Bool
  isPressed : Bool
  isTouched : Bool
  set_iod : ℕ
  iod : ℚ
  iod_origin : ℚ
  count : ℤ
deriving DecidableEq

/-- The program's initial state: globals initialised at lines 483-491,
`set_iod = 1` and `count = 0` at lines 522-523, and `iod = iod_origin = d`,
the device-reported half-eye separation recorded at lines 545-546. -/
def initState (d : ℚ) : CalibState :=
  { button_A := 1, button_B := 1, button_X := 1, set_Cubesize := 1
    tracking_lag := 0, render_lag := 0, superRotation := false
    isPressed := false, isTouched := false, set_iod := 1
    iod := d, iod_origin := d, count := 0 }

/-- The fields the trigger block (lines 648-675) reads and writes. -/
structure LagState where
  tracking_lag : ℤ
  render_lag : ℤ
  isTouched : Bool
deriving DecidableEq

/-- Lines 648-651: clear the shared touch latch when all four triggers are
below `0.01`. -/
def lagStep0 (i : InputState) (t : LagState) : LagState :=
  if i.indexTriggerL < 1/100 ∧ i.indexTriggerR < 1/100 ∧
     i.handTriggerL < 1/100 ∧ i.handTriggerR < 1/100 then
    { t with isTouched := false } else t

/-- Lines 653-657: left index trigger decrements `tracking_lag` when it is
positive and the latch is clear, setting the latch. -/
def lagStep1 (i : InputState) (t : LagState) : LagState :=
  if 1/10 < i.indexTriggerL ∧ 0 < t.tracking_lag ∧ t.isTouched = false then
    { t with isTouched := true, tracking_lag := t.tracking_lag - 1 } else t

/-- Lines 659-663: right index trigger increments `tracking_lag` when it is
below 29 and the latch is clear, setting the latch. -/
def lagStep2 (i : InputState) (t : LagState) : LagState :=
  if 1/10 < i.indexTriggerR ∧ t.tracking_lag < 29 ∧ t.isTouched = false then
    { t with isTouched := true, tracking_lag := t.tracking_lag + 1 } else t

/-- Lines 665-669: left hand trigger decrements `render_lag` when it is
positive and the latch is clear, setting the latch. -/
def lagStep3 (i : InputState) (t : LagState) : LagState :=
  if 1/10 < i.handTriggerL ∧ 0 < t.render_lag ∧ t.isTouched = false then
    { t with isTouched := true, render_lag := t.render_lag - 1 } else t

/-- Lines 671-675: right hand trigger increments `render_lag` when it is
below 10 and the latch is clear, setting the latch. -/
def lagStep4 (i : InputState) (t : LagState) : LagState :=
  if 1/10 < i.handTriggerR ∧ t.render_lag < 10 ∧ t.isTouched = false then
    { t with isTouched := true, render_lag := t.render_lag + 1 } else t

/-- Trigger handling (lines 648-675): the latch clearing followed by the
four sequential guarded adjustments, in source order. -/
def lagStep (i : InputState) (t : LagState) : LagState :=
  lagStep4 i (lagStep3 i (lagStep2 i (lagStep1 i (lagStep0 i t))))

/-- Interocular-distance mode selection (lines 677-688), acting on
`set_iod`.  The third test in the source is
`inputState.Buttons && ovrButton_RThumb` — a logical AND with a nonzero
constant, hence equivalent to `Buttons != 0`. -/
def iodSel (i : InputState) (m : ℕ) : ℕ :=
  if i.thumbRx < 0 then 2
  else if 0 < i.thumbRx then 3
  else if i.anyButton then 4
  else m

/-- Cube-size mode selection (lines 690-702): `set_Cubesize` is first reset
to 1, then the thumbstick / `Buttons && ovrButton_LThumb` chain runs (the
last test again being equivalent to `Buttons != 0`). -/
def cubeSel (i : InputState) : ℕ :=
  if i.thumbLx < 0 then 2
  else if 0 < i.thumbLx then 3
  else if i.anyButton then 4
  else 1

/-- The fields the button block (lines 704-745) reads and writes. -/
structure BtnState where
  button_A : ℕ
  button_B : ℕ
  button_X : ℕ
  superRotation : Bool
  isPressed : Bool
deriving DecidableEq

/-- Button handling (lines 704-745): clear the shared press latch when no
button at all is pressed, then an `else if` chain over A, B, X, Y, each
branch guarded by the latch being clear and setting it. -/
def btnStep (i : InputState) (b : BtnState) : BtnState :=
  let b0 := if i.anyButton = false then { b with isPressed := false } else b
  if i.btnA = true ∧ b0.isPressed = false then
    { b0 with isPressed := true
              button_A := if b0.button_A = 5 then 1 else b0.button_A + 1 }
  else if i.btnB = true ∧ b0.isPressed = false then
    { b0 with isPressed := true
              button_B := if b0.button_B = 4 then 1 else b0.button_B + 1 }
  else if i.btnX = true ∧ b0.isPressed = false then
    { b0 with isPressed := true
              button_X := if b0.button_X = 4 then 1 else b0.button_X + 1 }
  else if i.btnY = true ∧ b0.isPressed = false then
    { b0 with isPressed := true, superRotation := !b0.superRotation }
  else b0

/-- Interocular-distance evolution (lines 748-757): one fixed step toward
the mode selected in `set_iod`, with the bound checked before stepping. -/
def iodNext (m : ℕ) (d origin : ℚ) : ℚ :=
  if m = 3 ∧ d < 3/10 then d + 1/100
  else if m = 2 ∧ -(3/10) < d then d - 1/100
  else if m = 4 then origin
  else d

/-- Freeze-counter bookkeeping (lines 762-767):
`if (count == 0) count = render_lag; else count--;`. -/
def countNext (renderLag : ℤ) (c : ℤ) : ℤ :=
  if c = 0 then renderLag else c - 1

/-- One full `update()` call on input `i`, in source order: the trigger
block, `set_iod` selection, `set_Cubesize` selection and the button block
(all inside the `ovr_GetInputState` success branch, lines 645-746), then
the unconditional interocular-distance application with the `set_iod = 1`
reset (lines 748-760) and the freeze-counter update (lines 762-767), which
reads the just-updated `render_lag`.  The derived per-eye offsets
`HmdToEyePose[·].Position.x = ∓iod/2` (lines 758-759) carry no independent
state and are not tracked. -/
def updateStep (s : CalibState) (i : InputState) : CalibState :=
  let t := lagStep i ⟨s.tracking_lag, s.render_lag, s.isTouched⟩
  let m := iodSel i s.set_iod
  let b := btnStep i ⟨s.button_A, s.button_B, s.button_X, s.superRotation, s.isPressed⟩
  { button_A := b.button_A, button_B := b.button_B, button_X := b.button_X
    set_Cubesize := cubeSel i
    tracking_lag := t.tracking_lag, render_lag := t.render_lag
    superRotation := b.superRotation, isPressed := b.isPressed
    isTouched := t.isTouched
    set_iod := 1
    iod := iodNext m s.iod s.iod_origin
    iod_origin := s.iod_origin
    count := countNext t.render_lag s.count }

/-- Run `update()` once per frame over a list of polled inputs. -/
def runUpdates (s : CalibState) : List InputState → CalibState
  | [] => s
  | i :: L => runUpdates (updateStep s i) L

/-- Per-frame cube-size evolution (`Scene::render`, lines 963-974), acting
on the uniform scale factor `cubeSize[0][0]` (the cube-size matrix is a
uniform scale throughout, so composition multiplies scale factors). -/
def cubeSizeStep (setC : ℕ) (c : ℚ) : ℚ :=
  let c1 := if setC = 2 ∧ 1/100 < c then c * (99/100) else c
  let c2 := if setC = 3 ∧ c1 < 1/2 then c1 * (101/100) else c1
  if setC = 4 then 1/10 else c2

/-! ## Render-lag freeze (`update` lines 762-767 and `draw` lines 775-806, 872-874)

Each loop iteration runs `update()` then `draw()`.  With `renderLagFrames`
held at a constant `k`, the freeze counter evolves by `countNext` once per
frame; `draw` samples fresh eye poses exactly when the post-`update` counter
is zero and otherwise reuses the previous frame's values.

An eye pose (`mat4`) is modelled as its four columns, `Fin 4 → γ` with the
column type `γ` generic, which is enough to express the `button_B`
stabilisation overrides (lines 788-806) that copy whole columns from the
previous pose. -/

/-- The freeze counter immediately after the `n`-th `update()` call, with
`render_lag` held constant at `k` and the initial value `count = 0`
(line 523).  Frame `n ≥ 1` draws with counter `countAt k n`. -/
def countAt (k : ℕ) : ℕ → ℤ
  | 0 => 0
  | n + 1 => countNext (k : ℤ) (countAt k n)

/-- Lines 788-806: the `button_B` stabilisation override, column by column
(`pose[3]` is the translation column).  Mode 2 keeps the old translation,
mode 3 keeps the old rotation columns, mode 4 keeps the whole old pose;
any other mode leaves the fresh pose untouched. -/
def stabilize {γ : Type} (bB : ℕ) (oldp newp : Fin 4 → γ) : Fin 4 → γ :=
  fun j =>
    if bB = 2 then (if j = 3 then oldp j else newp j)
    else if bB = 3 then (if j = 3 then newp j else oldp j)
    else if bB = 4 then oldp j
    else newp j

/-- The eye pose handed to the per-eye dispatch at frame `n` (the value of
`left_pos_new` / `right_pos_new` during `draw`, lines 775-806), with
`render_lag` constant at `k` and stabilisation mode `bB`.  `sample n` is the
pose reported by `ovr_GetEyePoses` at frame `n`; `p0` is the indeterminate
initial content of `left_pos_old` / `right_pos_old`.  Line 873 stores the
rendered pose as the next frame's old pose. -/
def renderedPose {γ : Type} (k : ℕ) (bB : ℕ) (sample : ℕ → Fin 4 → γ)
    (p0 : Fin 4 → γ) : ℕ → Fin 4 → γ
  | 0 => p0
  | n + 1 =>
    let oldp := renderedPose k bB sample p0 n
    stabilize bB oldp (if countAt k (n + 1) = 0 then sample (n + 1) else oldp)

/-! ## Projection lemmas for `updateStep` -/

@[simp] lemma updateStep_tracking_lag (s : CalibState) (i : InputState) :
    (updateStep s i).tracking_lag =
      (lagStep i ⟨s.tracking_lag, s.render_lag, s.isTouched⟩).tracking_lag := rfl

@[simp] lemma updateStep_render_lag (s : CalibState) (i : InputState) :
    (updateStep s i).render_lag =
      (lagStep i ⟨s.tracking_lag, s.render_lag, s.isTouched⟩).render_lag := rfl

@[simp] lemma updateStep_isTouched (s : CalibState) (i : InputState) :
    (updateStep s i).isTouched =
      (lagStep i ⟨s.tracking_lag, s.render_lag, s.isTouched⟩).isTouched := rfl

@[simp] lemma updateStep_button_A (s : CalibState) (i : InputState) :
    (updateStep s i).button_A =
      (btnStep i ⟨s.button_A, s.button_B, s.button_X, s.superRotation, s.isPressed⟩).button_A := rfl

@[simp] lemma updateStep_button_B (s : CalibState) (i : InputState) :
    (updateStep s i).button_B =
      (btnStep i ⟨s.button_A, s.button_B, s.button_X, s.superRotation, s.isPressed⟩).button_B := rfl

@[simp] lemma updateStep_button_X (s : CalibState) (i : InputState) :
    (updateStep s i).button_X =
      (btnStep i ⟨s.button_A, s.button_B, s.button_X, s.superRotation, s.isPressed⟩).button_X := rfl

@[simp] lemma updateStep_superRotation (s : CalibState) (i : InputState) :
    (updateStep s i).superRotation =
      (btnStep i ⟨s.button_A, s.button_B, s.button_X, s.superRotation, s.isPressed⟩).superRotation := rfl

@[simp] lemma updateStep_isPressed (s : CalibState) (i : InputState) :
    (updateStep s i).isPressed =
      (btnStep i ⟨s.button_A, s.button_B, s.button_X, s.superRotation, s.isPressed⟩).isPressed := rfl

@[simp] lemma updateStep_set_Cubesize (s : CalibState) (i : InputState) :
    (updateStep s i).set_Cubesize = cubeSel i := rfl

@[simp] lemma updateStep_set_iod (s : CalibState) (i : InputState) :
    (updateStep s i).set_iod = 1 := rfl

@[simp] lemma updateStep_iod (s : CalibState) (i : InputState) :
    (updateStep s i).iod = iodNext (iodSel i s.set_iod) s.iod s.iod_origin := rfl

@[simp] lemma updateStep_iod_origin (s : CalibState) (i : InputState) :
    (updateStep s i).iod_origin = s.iod_origin := rfl

@[simp] lemma updateStep_count (s : CalibState) (i : InputState) :
    (updateStep s i).count =
      countNext (lagStep i ⟨s.tracking_lag, s.render_lag, s.isTouched⟩).render_lag s.count := rfl

@[simp] lemma runUpdates_nil (s : CalibState) : runUpdates s [] = s := rfl

@[simp] lemma runUpdates_cons (s : CalibState) (i : InputState) (L : List InputState) :
    runUpdates s (i :: L) = runUpdates (updateStep s i) L := rfl

/-! ## Theorems -/

/-- Claim C7 (confirmed): constructing the pipeline with two eyes each
reporting texture size 100×100 yields a combined render-target size of
200×100 and per-eye viewport rectangles (0,0,100,100) for the left eye and
(100,0,100,100) for the right eye. -/
theorem c7_viewport_packing :
    packEyes [(100, 100), (100, 100)] (0, 0) =
      ((200, 100), [⟨0, 0, 100, 100⟩, ⟨100, 0, 100, 100⟩]) := by decide

/-- Claim C2, counterexample: with distinct per-eye projections (0 for the
left eye, 1 for the right eye), the mono-left mode (`button_A = 2`) hands
the right eye's viewport the triple `(right projection, left pose, true)`,
not the left eye's triple `(left projection, left pose, true)` that the
claim promises. -/
theorem c2_mono_left_counterexample :
    dispatch 2 (0 : ℕ) 1 (5 : ℕ) 6 Eye.right = some (1, 5, true) ∧
    dispatch 2 (0 : ℕ) 1 (5 : ℕ) 6 Eye.right ≠ some (0, 5, true) ∧ (0 : ℕ) ≠ 1 := by
  decide

/-- Claim C2 as amended: in the swapped mode (`button_A = 5`) the per-eye
dispatch renders the right eye's triple (right projection, right pose,
isLeft = false) into the left eye's viewport and the left eye's triple into
the right eye's viewport, exactly as claimed; in the mono-left mode
(`button_A = 2`) both viewports receive the left eye's pose with
isLeft = true, but each viewport keeps its own eye's projection. -/
theorem c2_eye_mapping_amended {π ρ : Type} (projL projR : π) (poseL poseR : ρ) :
    (dispatch 5 projL projR poseL poseR Eye.left = some (projR, poseR, false) ∧
     dispatch 5 projL projR poseL poseR Eye.right = some (projL, poseL, true)) ∧
    (dispatch 2 projL projR poseL poseR Eye.left = some (projL, poseL, true) ∧
     dispatch 2 projL projR poseL poseR Eye.right = some (projR, poseL, true)) := by
  refine ⟨⟨rfl, rfl⟩, ⟨rfl, rfl⟩⟩

/-- Thirty consecutive pushes of the values 1, 2, …, 30 into a fresh ring
buffer: the failing input for claim C3. -/
def c3Pushes : List (BufOp ℤ) := (List.range 30).map (fun n => BufOp.push ((n : ℤ) + 1))

/-- Claim C3, evaluation at the failing input: after pushing 1, …, 30 into a
fresh buffer the occupancy is full (30), yet `pop(0)` — performed
immediately after `push(30)` with no intervening push — returns 1, the
oldest value, not 30; and `pop(29)` returns 2, the value pushed 28 pushes
earlier, not the value pushed 29 pushes earlier (which is 1).  `pop`
computes its index backwards from the read cursor, which tracks the oldest
slot, so the returned delay is `(lag − 1) mod 30` frames instead of `lag`
frames. -/
theorem c3_pop_after_fill :
    (runOps (Buffer.init (0 : ℤ)) c3Pushes).num = 30 ∧
    (runOps (Buffer.init (0 : ℤ)) c3Pushes).popVal 0 = 1 ∧
    (runOps (Buffer.init (0 : ℤ)) c3Pushes).popVal 29 = 2 := by decide

/-- Running any operation sequence from a partially filled buffer whose
write cursor equals its occupancy (and whose read cursor is still 0) keeps
slot 0 intact as long as the total number of pushes stays at most 29. -/
theorem runOps_first {α : Type} (L : List (BufOp α)) :
    ∀ b : Buffer α, 1 ≤ b.num → b.num + pushCount L ≤ 29 → b.write = b.num → b.read = 0 →
      (runOps b L).num = b.num + pushCount L ∧ (runOps b L).write = b.num + pushCount L ∧
      (runOps b L).read = 0 ∧ (runOps b L).positions 0 = b.positions 0 := by
  induction L with
  | nil =>
    intro b h1 h2 h3 h4
    simp [runOps, pushCount, h3, h4]
  | cons op L ih =>
    intro b h1 h2 h3 h4
    cases op with
    | push w =>
      have hpc : pushCount (BufOp.push w :: L) = pushCount L + 1 := rfl
      rw [hpc] at h2
      have hrun : runOps b (BufOp.push w :: L) = runOps (b.push w) L := rfl
      have hnum : (b.push w).num = b.num + 1 := by
        simp [Buffer.push]; omega
      have hwrite : (b.push w).write = b.num + 1 := by
        simp [Buffer.push, h3]; omega
      have hread : (b.push w).read = b.read := rfl
      have hpos : (b.push w).positions 0 = b.positions 0 := by
        simp [Buffer.push, h3]
        intro h; omega
      have := ih (b.push w) (by omega) (by omega) (by rw [hwrite, hnum]) (by rw [hread, h4])
      rw [hrun]
      refine ⟨?_, ?_, this.2.2.1, ?_⟩
      · rw [this.1, hnum]; omega
      · rw [this.2.1, hnum]; omega
      · rw [this.2.2.2, hpos]
    | pop lag =>
      have hrun : runOps b (BufOp.pop lag :: L) = runOps (b.popSt lag) L := rfl
      have hst : b.popSt lag = b := by
        simp [Buffer.popSt]; omega
      have hpc : pushCount (BufOp.pop lag :: L) = pushCount L := rfl
      rw [hrun, hst]
      rw [hpc] at h2
      exact ih b h1 h2 h3 h4

/-- Claim C5 (confirmed): for every operation sequence in which fewer than
30 pushes have occurred in total (so the buffer never reaches full
occupancy), a `pop(lag)` call at the end returns the first value ever
pushed, for every lag value. -/
theorem c5_pop_before_full {α : Type} (d v : α) (L : List (BufOp α)) (lag : ℤ)
    (hfirst : firstPushed L = some v) (hcount : pushCount L ≤ 29) :
    (runOps (Buffer.init d) L).popVal lag = v := by
  induction L with
  | nil => simp [firstPushed] at hfirst
  | cons op L ih =>
    cases op with
    | push w =>
      have hv : w = v := by
        have : firstPushed (BufOp.push w :: L) = some w := rfl
        rw [this] at hfirst
        injection hfirst
      subst hv
      have hpc : pushCount (BufOp.push w :: L) = pushCount L + 1 := rfl
      rw [hpc] at hcount
      have hrun : runOps (Buffer.init d) (BufOp.push w :: L) =
          runOps ((Buffer.init d).push w) L := rfl
      have hnum : ((Buffer.init d).push w).num = 1 := rfl
      have hwrite : ((Buffer.init d).push w).write = 1 := rfl
      have hread : ((Buffer.init d).push w).read = 0 := rfl
      have hpos : ((Buffer.init d).push w).positions 0 = w := rfl
      have hmain := runOps_first L ((Buffer.init d).push w)
        (by rw [hnum]) (by rw [hnum]; omega) (by rw [hwrite, hnum]) hread
      rw [hrun]
      have hne : (runOps ((Buffer.init d).push w) L).num ≠ 30 := by
        rw [hmain.1, hnum]; omega
      unfold Buffer.popVal
      rw [if_neg hne, hmain.2.2.2, hpos]
    | pop lag' =>
      have hst : (Buffer.init d).popSt lag' = Buffer.init d := rfl
      have hrun : runOps (Buffer.init d) (BufOp.pop lag' :: L) =
          runOps (Buffer.init d) L := by
        rw [show runOps (Buffer.init d) (BufOp.pop lag' :: L) =
              runOps ((Buffer.init d).popSt lag') L from rfl, hst]
      rw [hrun]
      exact ih hfirst hcount

/-- Witness for claim C5: two pushes (7 then 8) followed by `pop(5)` on a
fresh buffer return 7, the first value ever pushed. -/
theorem c5_pop_before_full_witness :
    firstPushed [BufOp.push (7 : ℤ), BufOp.push 8] = some 7 ∧
    pushCount [BufOp.push (7 : ℤ), BufOp.push 8] ≤ 29 ∧
    (runOps (Buffer.init (0 : ℤ)) [BufOp.push 7, BufOp.push 8]).popVal 5 = 7 :=
  ⟨by decide, by decide, c5_pop_before_full 0 7 _ 5 (by decide) (by decide)⟩

/-- One trigger-handling call keeps `tracking_lag` in [0, 29] and
`render_lag` in [0, 10]: every decrement is guarded by strict positivity and
every increment by the counter being strictly below its upper bound. -/
theorem lagStep_bounds (i : InputState) (t : LagState)
    (h1 : 0 ≤ t.tracking_lag) (h2 : t.tracking_lag ≤ 29)
    (h3 : 0 ≤ t.render_lag) (h4 : t.render_lag ≤ 10) :
    0 ≤ (lagStep i t).tracking_lag ∧ (lagStep i t).tracking_lag ≤ 29 ∧
    0 ≤ (lagStep i t).render_lag ∧ (lagStep i t).render_lag ≤ 10 := by
  have g0 : ∀ u : LagState, 0 ≤ u.tracking_lag → u.tracking_lag ≤ 29 →
      0 ≤ u.render_lag → u.render_lag ≤ 10 →
      0 ≤ (lagStep0 i u).tracking_lag ∧ (lagStep0 i u).tracking_lag ≤ 29 ∧
      0 ≤ (lagStep0 i u).render_lag ∧ (lagStep0 i u).render_lag ≤ 10 := by
    intro u a1 a2 a3 a4; unfold lagStep0; split_ifs <;> exact ⟨a1, a2, a3, a4⟩
  have g1 : ∀ u : LagState, 0 ≤ u.tracking_lag → u.tracking_lag ≤ 29 →
      0 ≤ u.render_lag → u.render_lag ≤ 10 →
      0 ≤ (lagStep1 i u).tracking_lag ∧ (lagStep1 i u).tracking_lag ≤ 29 ∧
      0 ≤ (lagStep1 i u).render_lag ∧ (lagStep1 i u).render_lag ≤ 10 := by
    intro u a1 a2 a3 a4; unfold lagStep1; split_ifs with h <;> simp_all <;> omega
  have g2 : ∀ u : LagState, 0 ≤ u.tracking_lag → u.tracking_lag ≤ 29 →
      0 ≤ u.render_lag → u.render_lag ≤ 10 →
      0 ≤ (lagStep2 i u).tracking_lag ∧ (lagStep2 i u).tracking_lag ≤ 29 ∧
      0 ≤ (lagStep2 i u).render_lag ∧ (lagStep2 i u).render_lag ≤ 10 := by
    intro u a1 a2 a3 a4; unfold lagStep2; split_ifs with h <;> simp_all <;> omega
  have g3 : ∀ u : LagState, 0 ≤ u.tracking_lag → u.tracking_lag ≤ 29 →
      0 ≤ u.render_lag → u.render_lag ≤ 10 →
      0 ≤ (lagStep3 i u).tracking_lag ∧ (lagStep3 i u).tracking_lag ≤ 29 ∧
      0 ≤ (lagStep3 i u).render_lag ∧ (lagStep3 i u).render_lag ≤ 10 := by
    intro u a1 a2 a3 a4; unfold lagStep3; split_ifs with h <;> simp_all <;> omega
  have g4 : ∀ u : LagState, 0 ≤ u.tracking_lag → u.tracking_lag ≤ 29 →
      0 ≤ u.render_lag → u.render_lag ≤ 10 →
      0 ≤ (lagStep4 i u).tracking_lag ∧ (lagStep4 i u).tracking_lag ≤ 29 ∧
      0 ≤ (lagStep4 i u).render_lag ∧ (lagStep4 i u).render_lag ≤ 10 := by
    intro u a1 a2 a3 a4; unfold lagStep4; split_ifs with h <;> simp_all <;> omega
  have b0 := g0 t h1 h2 h3 h4
  have b1 := g1 _ b0.1 b0.2.1 b0.2.2.1 b0.2.2.2
  have b2 := g2 _ b1.1 b1.2.1 b1.2.2.1 b1.2.2.2
  have b3 := g3 _ b2.1 b2.2.1 b2.2.2.1 b2.2.2.2
  exact g4 _ b3.1 b3.2.1 b3.2.2.1 b3.2.2.2

/-- Claim C8 (confirmed): for every sequence of controller input states,
starting from the program's initial state, the tracking-lag frame count
stays in [0, 29] and the rendering-lag frame count stays in [0, 10]. -/
theorem c8_lag_counters_bounded (d : ℚ) (L : List InputState) :
    0 ≤ (runUpdates (initState d) L).tracking_lag ∧
    (runUpdates (initState d) L).tracking_lag ≤ 29 ∧
    0 ≤ (runUpdates (initState d) L).render_lag ∧
    (runUpdates (initState d) L).render_lag ≤ 10 := by
  have key : ∀ (M : List InputState) (s : CalibState),
      0 ≤ s.tracking_lag → s.tracking_lag ≤ 29 → 0 ≤ s.render_lag → s.render_lag ≤ 10 →
      0 ≤ (runUpdates s M).tracking_lag ∧ (runUpdates s M).tracking_lag ≤ 29 ∧
      0 ≤ (runUpdates s M).render_lag ∧ (runUpdates s M).render_lag ≤ 10 := by
    intro M
    induction M with
    | nil => intro s a1 a2 a3 a4; exact ⟨a1, a2, a3, a4⟩
    | cons i M ih =>
      intro s a1 a2 a3 a4
      have hb := lagStep_bounds i ⟨s.tracking_lag, s.render_lag, s.isTouched⟩ a1 a2 a3 a4
      rw [runUpdates_cons]
      exact ih (updateStep s i) hb.1 hb.2.1 hb.2.2.1 hb.2.2.2
  exact key L (initState d) (by norm_num [initState]) (by norm_num [initState])
    (by norm_num [initState]) (by norm_num [initState])

/-- Claim C9 (confirmed): because the source tests
`inputState.Buttons && ovrButton_RThumb` (logical AND, true whenever any
button at all is pressed), on every frame in which some controller button
is pressed while the right thumbstick x-axis is exactly 0 the
interocular-distance mode becomes reset and the distance snaps back to the
original device-reported value that same frame; while the left thumbstick
x-axis is exactly 0 the cube-size mode becomes reset (4), whose effect in
`Scene::render` is to restore the 0.1 uniform scale.  No latch is involved:
this holds for every state, hence is re-applied every held frame. -/
theorem c9_thumb_click_reset (s : CalibState) (i : InputState)
    (hbtn : i.anyButton = true) :
    (i.thumbRx = 0 → (updateStep s i).iod = s.iod_origin) ∧
    (i.thumbLx = 0 → (updateStep s i).set_Cubesize = 4) ∧
    (∀ c : ℚ, cubeSizeStep 4 c = 1/10) := by
  refine ⟨?_, ?_, ?_⟩
  · intro hx
    rw [updateStep_iod]
    have hsel : iodSel i s.set_iod = 4 := by simp [iodSel, hx, hbtn]
    rw [hsel]
    simp [iodNext]
  · intro hx
    rw [updateStep_set_Cubesize]
    simp [cubeSel, hx, hbtn]
  · intro c
    simp [cubeSizeStep]

/-- An input frame with only a non-mapped button bit set (for example the
enter button) and both thumbsticks centred. -/
def c9Input : InputState := ⟨0, 0, 0, 0, 0, 0, false, false, false, false, true⟩

/-- Witness for claim C9: from the initial state with device distance 7/100,
one frame with a non-thumbstick button held and both sticks at 0 resets the
interocular distance to 7/100 and sets the cube-size mode to reset. -/
theorem c9_thumb_click_reset_witness :
    (updateStep (initState (7/100)) c9Input).iod = 7/100 ∧
    (updateStep (initState (7/100)) c9Input).set_Cubesize = 4 :=
  ⟨(c9_thumb_click_reset (initState (7/100)) c9Input rfl).1 rfl,
   (c9_thumb_click_reset (initState (7/100)) c9Input rfl).2.1 rfl⟩

/-! ## Edge triggering and the shared latches (claims C6 and C10) -/

/-- The four buttons the mode chain of lines 709-745 dispatches on. -/
inductive MappedButton where
  | A
  | B
  | X
  | Y
deriving DecidableEq

/-- Whether the raw input has the given mapped button down. -/
def pressedIn (b : MappedButton) (i : InputState) : Bool :=
  match b with
  | MappedButton.A => i.btnA
  | MappedButton.B => i.btnB
  | MappedButton.X => i.btnX
  | MappedButton.Y => i.btnY

/-- The given mapped button is down and the other three mapped buttons are
up (other, non-mapped buttons are unconstrained). -/
def onlyPressed (b : MappedButton) (i : InputState) : Prop :=
  match b with
  | MappedButton.A => i.btnA = true ∧ i.btnB = false ∧ i.btnX = false ∧ i.btnY = false
  | MappedButton.B => i.btnA = false ∧ i.btnB = true ∧ i.btnX = false ∧ i.btnY = false
  | MappedButton.X => i.btnA = false ∧ i.btnB = false ∧ i.btnX = true ∧ i.btnY = false
  | MappedButton.Y => i.btnA = false ∧ i.btnB = false ∧ i.btnX = false ∧ i.btnY = true

/-- The mode field controlled by each mapped button (`superRotation`, a
boolean toggle, is read as 0/1). -/
def modeField (b : MappedButton) (t : BtnState) : ℕ :=
  match b with
  | MappedButton.A => t.button_A
  | MappedButton.B => t.button_B
  | MappedButton.X => t.button_X
  | MappedButton.Y => cond t.superRotation 1 0

/-- The button-block fields of a calibration state. -/
def btnOf (s : CalibState) : BtnState :=
  ⟨s.button_A, s.button_B, s.button_X, s.superRotation, s.isPressed⟩

@[simp] lemma btnOf_updateStep (s : CalibState) (i : InputState) :
    btnOf (updateStep s i) = btnStep i (btnOf s) := rfl

lemma pressedIn_anyButton (b : MappedButton) (i : InputState)
    (h : pressedIn b i = true) : i.anyButton = true := by
  cases b <;> simp [pressedIn] at h <;> simp [InputState.anyButton, h]

/-- While any button is down and the shared press latch is set, the button
block is inert. -/
lemma btnStep_latched (i : InputState) (t : BtnState)
    (h1 : i.anyButton = true) (h2 : t.isPressed = true) : btnStep i t = t := by
  unfold btnStep
  simp [h1, h2]

/-- Pressing exactly one mapped button with the latch clear changes that
button's mode field and sets the latch. -/
lemma btnStep_fire (b : MappedButton) (i : InputState) (t : BtnState)
    (hp : onlyPressed b i) (h2 : t.isPressed = false) :
    modeField b (btnStep i t) ≠ modeField b t ∧ (btnStep i t).isPressed = true := by
  cases b <;>
    obtain ⟨ha, hb, hx, hy⟩ := hp <;>
    unfold btnStep <;>
    split_ifs <;>
    (try simp_all [modeField]) <;>
    first
      | omega
      | (split_ifs <;> omega)
      | (cases t.superRotation <;> simp_all)

/-- Over any run in which some button stays down every frame and the latch
starts set, the whole button block is frozen. -/
lemma runUpdates_btnOf_latched (L : List InputState) :
    ∀ s : CalibState, (∀ j ∈ L, j.anyButton = true) → s.isPressed = true →
      btnOf (runUpdates s L) = btnOf s := by
  induction L with
  | nil => intro s _ _; rfl
  | cons j L ih =>
    intro s hall hp
    have hj : j.anyButton = true := hall j (by simp)
    have hb : btnOf (updateStep s j) = btnOf s := by
      rw [btnOf_updateStep, btnStep_latched j (btnOf s) hj hp]
    have hp' : (updateStep s j).isPressed = true := by
      have hh : (updateStep s j).isPressed = (btnOf (updateStep s j)).isPressed := rfl
      rw [hh, hb]; exact hp
    rw [runUpdates_cons]
    calc btnOf (runUpdates (updateStep s j) L) = btnOf (updateStep s j) :=
          ih (updateStep s j) (fun x hx => hall x (by simp [hx])) hp'
      _ = btnOf s := hb

/-- Claim C6 as amended: provided the shared press latch is clear when the
press arrives (as it is whenever no button at all was down on the previous
frame) and the pressed button is the only mapped button down on the press
frame, pressing it and then holding it across any further frames (with
arbitrary other inputs, as long as the button stays held) changes the mode
field it controls exactly once — at the press transition — and the field
keeps that value until the button is released. -/
theorem c6_edge_trigger_amended (b : MappedButton) (s : CalibState) (i : InputState)
    (L : List InputState) (hlatch : s.isPressed = false) (hpress : onlyPressed b i)
    (hheld : ∀ j ∈ L, pressedIn b j = true) :
    modeField b (btnOf (updateStep s i)) ≠ modeField b (btnOf s) ∧
    modeField b (btnOf (runUpdates (updateStep s i) L)) =
      modeField b (btnOf (updateStep s i)) := by
  have hfire := btnStep_fire b i (btnOf s) hpress hlatch
  refine ⟨?_, ?_⟩
  · rw [btnOf_updateStep]; exact hfire.1
  · have hp' : (updateStep s i).isPressed = true := hfire.2
    have hall : ∀ j ∈ L, j.anyButton = true :=
      fun j hj => pressedIn_anyButton b j (hheld j hj)
    rw [runUpdates_btnOf_latched L (updateStep s i) hall hp']

/-- An input frame with only button A down. -/
def c6OnlyA : InputState := ⟨0, 0, 0, 0, 0, 0, true, false, false, false, false⟩

/-- Witness for the amended claim C6: from the initial state, pressing A
alone changes `button_A`, and one more frame with A still held leaves it
unchanged. -/
theorem c6_edge_trigger_amended_witness :
    modeField MappedButton.A (btnOf (updateStep (initState 0) c6OnlyA)) ≠
      modeField MappedButton.A (btnOf (initState 0)) ∧
    modeField MappedButton.A
        (btnOf (runUpdates (updateStep (initState 0) c6OnlyA) [c6OnlyA])) =
      modeField MappedButton.A (btnOf (updateStep (initState 0) c6OnlyA)) :=
  c6_edge_trigger_amended MappedButton.A (initState 0) c6OnlyA [c6OnlyA] rfl
    ⟨rfl, rfl, rfl, rfl⟩ (by decide)

/-- An input frame with only button X down. -/
def c6HeldX : InputState := ⟨0, 0, 0, 0, 0, 0, false, false, true, false, false⟩

/-- An input frame with buttons X and A down together. -/
def c6HeldXA : InputState := ⟨0, 0, 0, 0, 0, 0, true, false, true, false, false⟩

/-- Claim C6, counterexample: with X already held from frame 1, button A
transitions from released (frame 1) to pressed (frame 2) and stays held
through frame 4, yet `button_A`, the mode field A controls, never changes
at all (it stays 1) — not "exactly once" as the claim states — because the
press latch that A's handler consults is shared and was already set by X. -/
theorem c6_counterexample :
    c6HeldX.btnA = false ∧ c6HeldXA.btnA = true ∧
    (initState 0).button_A = 1 ∧
    (runUpdates (initState 0) [c6HeldX]).button_A = 1 ∧
    (runUpdates (initState 0) [c6HeldX, c6HeldXA]).button_A = 1 ∧
    (runUpdates (initState 0) [c6HeldX, c6HeldXA, c6HeldXA]).button_A = 1 ∧
    (runUpdates (initState 0) [c6HeldX, c6HeldXA, c6HeldXA, c6HeldXA]).button_A = 1 := by
  norm_num [runUpdates, updateStep, lagStep, lagStep0, lagStep1, lagStep2, lagStep3,
    lagStep4, btnStep, iodSel, cubeSel, iodNext, countNext, InputState.anyButton,
    c6HeldX, c6HeldXA, initState]

/-- The button-driven mode fields, as one tuple. -/
def modeTuple (s : CalibState) : ℕ × ℕ × ℕ × Bool :=
  (s.button_A, s.button_B, s.button_X, s.superRotation)

/-- How many frames of a run change some button-driven mode field. -/
def btnChanges (s : CalibState) : List InputState → ℕ
  | [] => 0
  | i :: L =>
    (if modeTuple (updateStep s i) = modeTuple s then 0 else 1) + btnChanges (updateStep s i) L

/-- The two lag counters, as one pair. -/
def lagPair (s : CalibState) : ℤ × ℤ := (s.tracking_lag, s.render_lag)

/-- How many frames of a run change a lag counter. -/
def lagChanges (s : CalibState) : List InputState → ℕ
  | [] => 0
  | i :: L =>
    (if lagPair (updateStep s i) = lagPair s then 0 else 1) + lagChanges (updateStep s i) L

/-- The touch-latch release condition of lines 648-651: all four trigger
values below 0.01. -/
def triggersReleased (i : InputState) : Prop :=
  i.indexTriggerL < 1/100 ∧ i.indexTriggerR < 1/100 ∧
  i.handTriggerL < 1/100 ∧ i.handTriggerR < 1/100

instance (i : InputState) : Decidable (triggersReleased i) := by
  unfold triggersReleased; infer_instance

lemma modeTuple_updateStep (s : CalibState) (i : InputState) :
    modeTuple (updateStep s i) =
      ((btnStep i (btnOf s)).button_A, (btnStep i (btnOf s)).button_B,
       (btnStep i (btnOf s)).button_X, (btnStep i (btnOf s)).superRotation) := rfl

lemma lagPair_updateStep (s : CalibState) (i : InputState) :
    lagPair (updateStep s i) =
      ((lagStep i ⟨s.tracking_lag, s.render_lag, s.isTouched⟩).tracking_lag,
       (lagStep i ⟨s.tracking_lag, s.render_lag, s.isTouched⟩).render_lag) := rfl

/-- With some button down, one button-block call either changes nothing or
leaves the latch set. -/
lemma btnStep_cases (i : InputState) (t : BtnState) (h : i.anyButton = true) :
    btnStep i t = t ∨ (btnStep i t).isPressed = true := by
  unfold btnStep
  by_cases h0 : i.anyButton = false
  · simp_all
  · rw [if_neg h0]
    dsimp only []
    split_ifs <;> simp_all

lemma lagStep0_not_released (i : InputState) (t : LagState)
    (h : ¬ triggersReleased i) : lagStep0 i t = t := by
  unfold triggersReleased at h
  unfold lagStep0
  rw [if_neg h]

lemma lagStep1_cases (i : InputState) (t : LagState) :
    lagStep1 i t = t ∨ (lagStep1 i t).isTouched = true := by
  unfold lagStep1; split_ifs <;> simp

lemma lagStep2_cases (i : InputState) (t : LagState) :
    lagStep2 i t = t ∨ (lagStep2 i t).isTouched = true := by
  unfold lagStep2; split_ifs <;> simp

lemma lagStep3_cases (i : InputState) (t : LagState) :
    lagStep3 i t = t ∨ (lagStep3 i t).isTouched = true := by
  unfold lagStep3; split_ifs <;> simp

lemma lagStep4_cases (i : InputState) (t : LagState) :
    lagStep4 i t = t ∨ (lagStep4 i t).isTouched = true := by
  unfold lagStep4; split_ifs <;> simp

lemma lagStep1_touched (i : InputState) (t : LagState) (h : t.isTouched = true) :
    lagStep1 i t = t := by
  unfold lagStep1; split_ifs with hc
  · exact absurd hc.2.2 (by simp [h])
  · rfl

lemma lagStep2_touched (i : InputState) (t : LagState) (h : t.isTouched = true) :
    lagStep2 i t = t := by
  unfold lagStep2; split_ifs with hc
  · exact absurd hc.2.2 (by simp [h])
  · rfl

lemma lagStep3_touched (i : InputState) (t : LagState) (h : t.isTouched = true) :
    lagStep3 i t = t := by
  unfold lagStep3; split_ifs with hc
  · exact absurd hc.2.2 (by simp [h])
  · rfl

lemma lagStep4_touched (i : InputState) (t : LagState) (h : t.isTouched = true) :
    lagStep4 i t = t := by
  unfold lagStep4; split_ifs with hc
  · exact absurd hc.2.2 (by simp [h])
  · rfl

/-- With the triggers not all released, one trigger-block call either
changes nothing or leaves the touch latch set. -/
lemma lagStep_cases (i : InputState) (t : LagState) (h : ¬ triggersReleased i) :
    lagStep i t = t ∨ (lagStep i t).isTouched = true := by
  unfold lagStep
  rw [lagStep0_not_released i t h]
  rcases lagStep1_cases i t with h1 | h1
  · rw [h1]
    rcases lagStep2_cases i t with h2 | h2
    · rw [h2]
      rcases lagStep3_cases i t with h3 | h3
      · rw [h3]
        exact lagStep4_cases i t
      · right
        rw [lagStep4_touched i _ h3]
        exact h3
    · right
      rw [lagStep3_touched i _ h2, lagStep4_touched i _ h2]
      exact h2
  · right
    rw [lagStep2_touched i _ h1, lagStep3_touched i _ h1, lagStep4_touched i _ h1]
    exact h1

/-- With the triggers not all released and the touch latch set, the trigger
block is inert. -/
lemma lagStep_touched_frozen (i : InputState) (t : LagState)
    (h : ¬ triggersReleased i) (ht : t.isTouched = true) : lagStep i t = t := by
  unfold lagStep
  rw [lagStep0_not_released i t h, lagStep1_touched i t ht, lagStep2_touched i t ht,
    lagStep3_touched i t ht, lagStep4_touched i t ht]

lemma btnChanges_latched (L : List InputState) :
    ∀ s : CalibState, (∀ i ∈ L, i.anyButton = true) → s.isPressed = true →
      btnChanges s L = 0 := by
  induction L with
  | nil => intro s _ _; rfl
  | cons i L ih =>
    intro s hall hp
    have hi : i.anyButton = true := hall i (by simp)
    have hlat : btnStep i (btnOf s) = btnOf s := btnStep_latched i (btnOf s) hi hp
    have htup : modeTuple (updateStep s i) = modeTuple s := by
      rw [modeTuple_updateStep, hlat]; rfl
    have hp' : (updateStep s i).isPressed = true := by
      have hh : (updateStep s i).isPressed = (btnStep i (btnOf s)).isPressed := rfl
      rw [hh, hlat]; exact hp
    unfold btnChanges
    rw [if_pos htup, ih (updateStep s i) (fun x hx => hall x (by simp [hx])) hp']

lemma lagChanges_latched (L : List InputState) :
    ∀ s : CalibState, (∀ i ∈ L, ¬ triggersReleased i) → s.isTouched = true →
      lagChanges s L = 0 := by
  induction L with
  | nil => intro s _ _; rfl
  | cons i L ih =>
    intro s hall ht
    have hi : ¬ triggersReleased i := hall i (by simp)
    have hfr : lagStep i ⟨s.tracking_lag, s.render_lag, s.isTouched⟩ =
        ⟨s.tracking_lag, s.render_lag, s.isTouched⟩ :=
      lagStep_touched_frozen i _ hi ht
    have htup : lagPair (updateStep s i) = lagPair s := by
      rw [lagPair_updateStep, hfr]; rfl
    have ht' : (updateStep s i).isTouched = true := by
      rw [updateStep_isTouched, hfr]; exact ht
    unfold lagChanges
    rw [if_pos htup, ih (updateStep s i) (fun x hx => hall x (by simp [hx])) ht']

/-- Claim C10 (confirmed): one shared press latch serves the four mode
buttons and one shared touch latch serves the four lag triggers.  Over any
run in which no frame has all buttons released, at most one button-driven
mode change occurs in total, and over any run in which no frame has all
four triggers below the release threshold, at most one lag-counter
adjustment occurs in total — a fresh press of a different button or trigger
while the respective latch is still set is ignored. -/
theorem c10_shared_latches :
    (∀ (s : CalibState) (L : List InputState), (∀ i ∈ L, i.anyButton = true) →
      btnChanges s L ≤ 1) ∧
    (∀ (s : CalibState) (L : List InputState), (∀ i ∈ L, ¬ triggersReleased i) →
      lagChanges s L ≤ 1) := by
  constructor
  · intro s L
    induction L generalizing s with
    | nil => intro _; simp [btnChanges]
    | cons i L ih =>
      intro hall
      have hi : i.anyButton = true := hall i (by simp)
      have htail : ∀ x ∈ L, x.anyButton = true := fun x hx => hall x (by simp [hx])
      by_cases hchg : modeTuple (updateStep s i) = modeTuple s
      · unfold btnChanges
        rw [if_pos hchg]
        simpa using ih (updateStep s i) htail
      · unfold btnChanges
        rw [if_neg hchg]
        have hp' : (updateStep s i).isPressed = true := by
          rcases btnStep_cases i (btnOf s) hi with hc | hc
          · exact absurd (by rw [modeTuple_updateStep, hc]; rfl) hchg
          · exact hc
        rw [btnChanges_latched L (updateStep s i) htail hp']
  · intro s L
    induction L generalizing s with
    | nil => intro _; simp [lagChanges]
    | cons i L ih =>
      intro hall
      have hi : ¬ triggersReleased i := hall i (by simp)
      have htail : ∀ x ∈ L, ¬ triggersReleased x := fun x hx => hall x (by simp [hx])
      by_cases hchg : lagPair (updateStep s i) = lagPair s
      · unfold lagChanges
        rw [if_pos hchg]
        simpa using ih (updateStep s i) htail
      · unfold lagChanges
        rw [if_neg hchg]
        have ht' : (updateStep s i).isTouched = true := by
          rcases lagStep_cases i ⟨s.tracking_lag, s.render_lag, s.isTouched⟩ hi with hc | hc
          · exact absurd (by rw [lagPair_updateStep, hc]; rfl) hchg
          · rw [updateStep_isTouched]; exact hc
        rw [lagChanges_latched L (updateStep s i) htail ht']

/-- An input frame with only button A down, for the C10 witness. -/
def c10BtnInputA : InputState := ⟨0, 0, 0, 0, 0, 0, true, false, false, false, false⟩

/-- An input frame with only button B down, for the C10 witness. -/
def c10BtnInputB : InputState := ⟨0, 0, 0, 0, 0, 0, false, true, false, false, false⟩

/-- An input frame with the right index trigger fully pulled. -/
def c10TrigInput : InputState := ⟨0, 1, 0, 0, 0, 0, false, false, false, false, false⟩

/-- Witness for claim C10: pressing A then B with no release in between
changes the mode fields at most once, and pulling the right index trigger
for two consecutive frames adjusts the lag counters at most once. -/
theorem c10_shared_latches_witness :
    btnChanges (initState 0) [c10BtnInputA, c10BtnInputB] ≤ 1 ∧
    lagChanges (initState 0) [c10TrigInput, c10TrigInput] ≤ 1 :=
  ⟨c10_shared_latches.1 (initState 0) _ (by decide),
   c10_shared_latches.2 (initState 0) _ (by
    intro j hj
    have hje : j = c10TrigInput := by simpa using hj
    subst hje
    norm_num [triggersReleased, c10TrigInput])⟩


/-! ## Interocular distance (claim C4) -/

/-- An input frame pushing the right thumbstick to the right (increase). -/
def c4Inc : InputState := ⟨0, 0, 0, 0, 1, 0, false, false, false, false, false⟩

/-- An input frame pushing the right thumbstick to the left (decrease). -/
def c4Dec : InputState := ⟨0, 0, 0, 0, -1, 0, false, false, false, false, false⟩

/-- Claim C4, counterexample: starting from the device-reported distance
d0 = 0.295 (= 59/200, inside [-0.3, 0.3]), one increase step yields
0.305 (= 61/200), which differs from min(d0 + 0.01*1, 0.3) = 0.3 and lies
outside [-0.3, 0.3]: the bound is checked before the step, so the value can
overshoot the cap by up to one step. -/
theorem c4_counterexample :
    (initState (59/200)).iod = 59/200 ∧
    (updateStep (initState (59/200)) c4Inc).iod = 61/200 ∧
    (61/200 : ℚ) ≠ min (59/200 + 1/100 * 1) (3/10) ∧
    (3/10 : ℚ) < 61/200 := by
  norm_num [updateStep_iod, iodSel, iodNext, initState, c4Inc, min_def]

/-- With the right thumbstick pushed right, one frame moves `iod` up one
step when it is still below 0.3 and otherwise freezes it. -/
lemma iod_inc_step (s : CalibState) (i : InputState) (h : 0 < i.thumbRx) :
    (updateStep s i).iod = if s.iod < 3/10 then s.iod + 1/100 else s.iod := by
  rw [updateStep_iod]
  have hsel : iodSel i s.set_iod = 3 := by
    simp [iodSel, h, not_lt.mpr h.le]
  rw [hsel]
  simp [iodNext]

/-- With the right thumbstick pushed left, one frame moves `iod` down one
step when it is still above -0.3 and otherwise freezes it. -/
lemma iod_dec_step (s : CalibState) (i : InputState) (h : i.thumbRx < 0) :
    (updateStep s i).iod = if -(3/10) < s.iod then s.iod - 1/100 else s.iod := by
  rw [updateStep_iod]
  have hsel : iodSel i s.set_iod = 2 := by
    simp [iodSel, h]
  rw [hsel]
  simp [iodNext]

lemma runUpdates_iod_origin (L : List InputState) :
    ∀ s : CalibState, (runUpdates s L).iod_origin = s.iod_origin := by
  induction L with
  | nil => intro s; rfl
  | cons i L ih => intro s; rw [runUpdates_cons, ih, updateStep_iod_origin]

lemma c4_inc_hold (L : List InputState) :
    ∀ s : CalibState, (∀ i ∈ L, 0 < i.thumbRx) → 3/10 ≤ s.iod →
      (runUpdates s L).iod = s.iod := by
  induction L with
  | nil => intro s _ _; rfl
  | cons i L ih =>
    intro s hall hge
    have hstep : (updateStep s i).iod = s.iod := by
      rw [iod_inc_step s i (hall i (by simp)), if_neg (not_lt.mpr hge)]
    rw [runUpdates_cons, ih (updateStep s i) (fun x hx => hall x (by simp [hx])) (by rw [hstep]; exact hge), hstep]

lemma c4_inc_bound (L : List InputState) :
    ∀ s : CalibState, (∀ i ∈ L, 0 < i.thumbRx) → s.iod < 31/100 →
      (runUpdates s L).iod < 31/100 := by
  induction L with
  | nil => intro s _ h; exact h
  | cons i L ih =>
    intro s hall hlt
    have hstep : (updateStep s i).iod < 31/100 := by
      rw [iod_inc_step s i (hall i (by simp))]
      split_ifs with hc
      · linarith
      · exact hlt
    rw [runUpdates_cons]
    exact ih (updateStep s i) (fun x hx => hall x (by simp [hx])) hstep

lemma c4_inc_exact (L : List InputState) :
    ∀ s : CalibState, (∀ i ∈ L, 0 < i.thumbRx) →
      s.iod + ((L.length : ℚ) - 1)/100 < 3/10 →
      (runUpdates s L).iod = s.iod + (L.length : ℚ)/100 := by
  induction L with
  | nil => intro s _ _; simp
  | cons i L ih =>
    intro s hall hlt
    have hn : ((L.length : ℚ)) ≥ 0 := by positivity
    have hcast : ((i :: L).length : ℚ) = (L.length : ℚ) + 1 := by
      push_cast [List.length_cons]; ring
    rw [hcast] at hlt
    have hd0 : s.iod < 3/10 := by linarith
    have hstep : (updateStep s i).iod = s.iod + 1/100 := by
      rw [iod_inc_step s i (hall i (by simp)), if_pos hd0]
    rw [runUpdates_cons, ih (updateStep s i) (fun x hx => hall x (by simp [hx]))
      (by rw [hstep]; linarith), hstep, hcast]
    ring

lemma c4_dec_hold (L : List InputState) :
    ∀ s : CalibState, (∀ i ∈ L, i.thumbRx < 0) → s.iod ≤ -(3/10) →
      (runUpdates s L).iod = s.iod := by
  induction L with
  | nil => intro s _ _; rfl
  | cons i L ih =>
    intro s hall hle
    have hstep : (updateStep s i).iod = s.iod := by
      rw [iod_dec_step s i (hall i (by simp)), if_neg (not_lt.mpr hle)]
    rw [runUpdates_cons, ih (updateStep s i) (fun x hx => hall x (by simp [hx])) (by rw [hstep]; exact hle), hstep]

lemma c4_dec_bound (L : List InputState) :
    ∀ s : CalibState, (∀ i ∈ L, i.thumbRx < 0) → -(31/100) < s.iod →
      -(31/100) < (runUpdates s L).iod := by
  induction L with
  | nil => intro s _ h; exact h
  | cons i L ih =>
    intro s hall hlt
    have hstep : -(31/100) < (updateStep s i).iod := by
      rw [iod_dec_step s i (hall i (by simp))]
      split_ifs with hc
      · linarith
      · exact hlt
    rw [runUpdates_cons]
    exact ih (updateStep s i) (fun x hx => hall x (by simp [hx])) hstep

lemma c4_dec_exact (L : List InputState) :
    ∀ s : CalibState, (∀ i ∈ L, i.thumbRx < 0) →
      -(3/10) < s.iod - ((L.length : ℚ) - 1)/100 →
      (runUpdates s L).iod = s.iod - (L.length : ℚ)/100 := by
  induction L with
  | nil => intro s _ _; simp
  | cons i L ih =>
    intro s hall hlt
    have hn : ((L.length : ℚ)) ≥ 0 := by positivity
    have hcast : ((i :: L).length : ℚ) = (L.length : ℚ) + 1 := by
      push_cast [List.length_cons]; ring
    rw [hcast] at hlt
    have hd0 : -(3/10) < s.iod := by linarith
    have hstep : (updateStep s i).iod = s.iod - 1/100 := by
      rw [iod_dec_step s i (hall i (by simp)), if_pos hd0]
    rw [runUpdates_cons, ih (updateStep s i) (fun x hx => hall x (by simp [hx]))
      (by rw [hstep]; linarith), hstep, hcast]
    ring

/-- Claim C4 as amended (modelled over exact rationals): with the increase
target held for N frames from distance d0, the distance is exactly
d0 + 0.01*N as long as d0 + 0.01*(N-1) < 0.3 (so no capping occurred); once
the value reaches 0.3 or more it never moves again; and a value below 0.31
stays below 0.31 — the code can overshoot the claimed cap 0.3 by up to one
step because the bound is tested before adding.  The decrease target is
symmetric with floor -0.3 (overshoot bounded by -0.31), and the reset mode
yields exactly the originally recorded device-reported value on the next
step.  The recorded original is never modified. -/
theorem c4_iod_amended :
    (∀ (s : CalibState) (L : List InputState), (∀ i ∈ L, 0 < i.thumbRx) →
      (runUpdates s L).iod_origin = s.iod_origin ∧
      (3/10 ≤ s.iod → (runUpdates s L).iod = s.iod) ∧
      (s.iod < 31/100 → (runUpdates s L).iod < 31/100) ∧
      (s.iod + ((L.length : ℚ) - 1)/100 < 3/10 →
        (runUpdates s L).iod = s.iod + (L.length : ℚ)/100)) ∧
    (∀ (s : CalibState) (L : List InputState), (∀ i ∈ L, i.thumbRx < 0) →
      (s.iod ≤ -(3/10) → (runUpdates s L).iod = s.iod) ∧
      (-(31/100) < s.iod → -(31/100) < (runUpdates s L).iod) ∧
      (-(3/10) < s.iod - ((L.length : ℚ) - 1)/100 →
        (runUpdates s L).iod = s.iod - (L.length : ℚ)/100)) ∧
    (∀ d o : ℚ, iodNext 4 d o = o) := by
  refine ⟨fun s L hall => ⟨runUpdates_iod_origin L s, fun h => c4_inc_hold L s hall h,
      fun h => c4_inc_bound L s hall h, fun h => c4_inc_exact L s hall h⟩,
    fun s L hall => ⟨fun h => c4_dec_hold L s hall h, fun h => c4_dec_bound L s hall h,
      fun h => c4_dec_exact L s hall h⟩,
    fun d o => by simp [iodNext]⟩

/-- Witness for the amended claim C4: two increase frames from distance 0
yield exactly 0.02, and the reset mode returns the recorded original. -/
theorem c4_iod_amended_witness :
    (runUpdates (initState 0) [c4Inc, c4Inc]).iod = 2/100 ∧
    iodNext 4 (5/100) (7/100) = 7/100 := by
  constructor
  · have hmem : ∀ i ∈ [c4Inc, c4Inc], (0 : ℚ) < i.thumbRx := by
      intro j hj
      have hje : j = c4Inc := by simpa using hj
      subst hje
      norm_num [c4Inc]
    have h := (c4_iod_amended.1 (initState 0) [c4Inc, c4Inc] hmem).2.2.2
      (by norm_num [initState])
    norm_num [initState] at h ⊢
    exact h
  · exact c4_iod_amended.2.2 (5/100) (7/100)



/-! ## Render-lag freeze cadence (claim C1) -/

lemma succ_mod_of_eq (n k : ℕ) (h : n % (k+1) = k) : (n+1) % (k+1) = 0 := by
  have h1 : (n + 1) % (k+1) = ((n % (k+1)) + (1 % (k+1))) % (k+1) := Nat.add_mod n 1 (k+1)
  rcases Nat.eq_zero_or_pos k with hk | hk
  · subst hk; simp [Nat.mod_one]
  · have h2 : 1 % (k+1) = 1 := Nat.mod_eq_of_lt (by omega)
    rw [h1, h2, h, Nat.mod_self]

lemma succ_mod_of_lt (n k : ℕ) (h : n % (k+1) < k) : (n+1) % (k+1) = n % (k+1) + 1 := by
  have h1 : (n + 1) % (k+1) = ((n % (k+1)) + (1 % (k+1))) % (k+1) := Nat.add_mod n 1 (k+1)
  have h2 : 1 % (k+1) = 1 := Nat.mod_eq_of_lt (by omega)
  rw [h1, h2, Nat.mod_eq_of_lt (by omega)]

/-- Closed form of the freeze counter. -/
lemma countAt_closed (k : ℕ) : ∀ n : ℕ, countAt k (n+1) = (k : ℤ) - ((n % (k+1) : ℕ) : ℤ) := by
  intro n
  induction n with
  | zero =>
    show countNext (k : ℤ) (countAt k 0) = _
    simp [countAt, countNext]
  | succ n ih =>
    show countNext (k : ℤ) (countAt k (n+1)) = _
    rw [ih]
    have hr : n % (k+1) < k + 1 := Nat.mod_lt _ (by omega)
    unfold countNext
    by_cases hk : n % (k+1) = k
    · rw [if_pos (by rw [hk]; ring), succ_mod_of_eq n k hk]
      simp
    · have hlt : n % (k+1) < k := by omega
      rw [if_neg (by intro hcon; apply hk; omega), succ_mod_of_lt n k hlt]
      push_cast
      ring

lemma countAt_zero_iff (k n : ℕ) (h : 1 ≤ n) : countAt k n = 0 ↔ n % (k+1) = 0 := by
  obtain ⟨n', rfl⟩ : ∃ n', n = n' + 1 := ⟨n - 1, by omega⟩
  rw [countAt_closed k n']
  have hr : n' % (k+1) < k + 1 := Nat.mod_lt _ (by omega)
  constructor
  · intro hz
    have hk : n' % (k+1) = k := by omega
    exact succ_mod_of_eq n' k hk
  · intro hz
    have hk : n' % (k+1) = k := by
      by_contra hne
      have hlt : n' % (k+1) < k := by omega
      rw [succ_mod_of_lt n' k hlt] at hz
      omega
    rw [hk]; ring

/-- There is exactly one multiple of d in any window of d consecutive
naturals. -/
lemma exists_unique_multiple (d m : ℕ) (hd : 0 < d) :
    ∃! n : ℕ, (m ≤ n ∧ n < m + d) ∧ n % d = 0 := by
  have hdm := Nat.div_add_mod m d
  have hrlt : m % d < d := Nat.mod_lt _ hd
  have hexp : d * (m / d + 1) = d * (m / d) + d := by ring
  have hex : ∃ n : ℕ, (m ≤ n ∧ n < m + d) ∧ n % d = 0 := by
    by_cases h0 : m % d = 0
    · exact ⟨m, ⟨le_refl m, by omega⟩, h0⟩
    · refine ⟨d * (m / d + 1), ⟨by omega, by omega⟩, Nat.mul_mod_right d _⟩
  obtain ⟨a, ha⟩ := hex
  refine ⟨a, ha, ?_⟩
  intro b hb
  have hqa := Nat.div_add_mod a d
  have hqb := Nat.div_add_mod b d
  rw [ha.2] at hqa
  rw [hb.2] at hqb
  have hexa : d * (a / d + 1) = d * (a / d) + d := by ring
  have hexb : d * (b / d + 1) = d * (b / d) + d := by ring
  have h1 : d * (b / d) < d * (a / d + 1) := by omega
  have h2 : d * (a / d) < d * (b / d + 1) := by omega
  have h3 : b / d < a / d + 1 := Nat.lt_of_mul_lt_mul_left h1
  have h4 : a / d < b / d + 1 := Nat.lt_of_mul_lt_mul_left h2
  have h5 : a / d = b / d := by omega
  have h6 : d * (a / d) = d * (b / d) := by rw [h5]
  omega

@[simp] lemma stabilize_one {γ : Type} (oldp newp : Fin 4 → γ) :
    stabilize 1 oldp newp = newp := by
  funext j
  simp [stabilize]

lemma renderedPose_succ {γ : Type} (k : ℕ) (sample : ℕ → Fin 4 → γ)
    (p0 : Fin 4 → γ) (n : ℕ) :
    renderedPose k 1 sample p0 (n+1) =
      if countAt k (n+1) = 0 then sample (n+1) else renderedPose k 1 sample p0 n := by
  rw [renderedPose]
  rw [stabilize_one]

/-- Claim C1 (confirmed): with `render_lag` held constant at `k` and the
stabilisation mode at its default (`button_B = 1`), the eye poses passed to
the per-eye dispatch are freshly sampled exactly on the frames `n` with
`(k+1) ∣ n` — exactly one frame out of every `k+1` consecutive frames — and
on all other frames they are reused unchanged, equal to the previous
frame's values; with `k = 0` every frame is fresh.  (The eye projections
are captured and restored through the same `count` test, lines 778-779 and
784-785, so they follow the identical cadence; since the capture copies the
current projections back and forth, their value never actually differs
between frames.) -/
theorem c1_render_lag_freeze {γ : Type} (k : ℕ) (sample : ℕ → Fin 4 → γ)
    (p0 : Fin 4 → γ) :
    (∀ n : ℕ, 1 ≤ n → (countAt k n = 0 ↔ (k + 1) ∣ n)) ∧
    (∀ m : ℕ, 1 ≤ m →
      ∃! n : ℕ, n ∈ Finset.Ico m (m + (k + 1)) ∧ countAt k n = 0) ∧
    (∀ n : ℕ, countAt k (n + 1) = 0 →
      renderedPose k 1 sample p0 (n + 1) = sample (n + 1)) ∧
    (∀ n : ℕ, ¬ countAt k (n + 1) = 0 →
      renderedPose k 1 sample p0 (n + 1) = renderedPose k 1 sample p0 n) ∧
    (k = 0 → ∀ n : ℕ, 1 ≤ n → countAt 0 n = 0) := by
  have hiff : ∀ n : ℕ, 1 ≤ n → (countAt k n = 0 ↔ (k + 1) ∣ n) := by
    intro n hn
    rw [countAt_zero_iff k n hn]
    exact Nat.dvd_iff_mod_eq_zero.symm
  refine ⟨hiff, ?_, ?_, ?_, ?_⟩
  · intro m hm
    obtain ⟨a, ⟨⟨hma, hlt⟩, hmod⟩, huniq⟩ := exists_unique_multiple (k+1) m (by omega)
    refine ⟨a, ⟨Finset.mem_Ico.mpr ⟨hma, hlt⟩, ?_⟩, ?_⟩
    · exact (countAt_zero_iff k a (by omega)).mpr hmod
    · intro b hb
      obtain ⟨hbmem, hbz⟩ := hb
      obtain ⟨hmb, hblt⟩ := Finset.mem_Ico.mp hbmem
      exact huniq b ⟨⟨hmb, hblt⟩, (countAt_zero_iff k b (by omega)).mp hbz⟩
  · intro n h
    rw [renderedPose_succ, if_pos h]
  · intro n h
    rw [renderedPose_succ, if_neg h]
  · intro _ n hn
    rw [countAt_zero_iff 0 n hn]
    omega

/-- A distinct sample pose for every frame, for the C1 witness. -/
def c1SampleEx : ℕ → Fin 4 → ℕ := fun n _ => n

/-- An arbitrary initial pose, for the C1 witness. -/
def c1P0Ex : Fin 4 → ℕ := fun _ => 0

/-- Witness for claim C1: with `render_lag = 2`, frame 3 is fresh (it
renders the frame-3 sample) and frame 2 reuses frame 1's pose. -/
theorem c1_render_lag_freeze_witness :
    countAt 2 3 = 0 ∧
    renderedPose 2 1 c1SampleEx c1P0Ex 3 = c1SampleEx 3 ∧
    renderedPose 2 1 c1SampleEx c1P0Ex 2 = renderedPose 2 1 c1SampleEx c1P0Ex 1 := by
  have h := c1_render_lag_freeze 2 c1SampleEx c1P0Ex
  exact ⟨(h.1 3 (by decide)).mpr (by decide),
    h.2.2.1 2 (by decide),
    h.2.2.2.1 1 (by decide)⟩


end VRImmersion
